import Mathlib

/-!
Verification development for the CiteBibtex plugin core (src/CiteBibtex.py).

The Python source is shallowly embedded: each dictionary value is either a
plain string or a list of strings (the only shapes the BibTeX parser
produces), a raw bibliography entry is an association list from field name
to value, and the mutable plugin object (`self.last_modified`, `self.refs`,
`self.ref_keys`) is an explicit state record threaded through the
operations.  Python exceptions become `Except String` results; operations
that mutate `self` additionally return the post-call state, so that a
raised exception still exposes the state it left behind.  Dynamic typing is
embedded faithfully: `+` on a string and a list raises `TypeError`,
`list += str` extends the list in place with the one-character strings of
the right-hand side, and reading a local variable that was never assigned
raises `UnboundLocalError`.
-/

namespace CiteBibtex

/-- A Python value as produced by the BibTeX parser: a plain string or a
list of strings (the `author` customization produces lists). -/
inductive Value where
  | str (s : String)
  | list (l : List String)
  deriving DecidableEq, Repr

/-- A raw bibliography entry: an association list from field name to value,
embedding the Python dict produced by the parser (first binding wins on
lookup; parser dicts have unique keys). -/
def RawEntry := List (String × Value)

instance : DecidableEq RawEntry := by
  unfold RawEntry
  infer_instance

/-- Embedding of the Python dict read `i[field]` / `field in i`: the value
of the first binding of `k`, if any. -/
def lookupField (i : RawEntry) (k : String) : Option Value :=
  (List.find? (fun p => p.1 == k) i).map (fun p => p.2)

/-- Embedding of writing through an alias to the (unique) binding of `k`:
every binding of `k` is replaced by `v`. -/
def setVal (i : RawEntry) (k : String) (v : Value) : RawEntry :=
  i.map (fun p => if p.1 == k then (k, v) else p)

/-- The 4-field display record returned by `get_item` as the Python list
`[search_key, year + ' | ' + authors, title, publication]`.  The second
component is always a string (a `TypeError` is raised otherwise); the
other components carry whatever value the dict held. -/
structure DisplayRecord where
  searchKey : Value
  dateAuthors : String
  title : Value
  publication : Value
  deriving DecidableEq, Repr

/-- The configuration the projection reads: the
`additional_search_fields` setting (absent/`None` behaves like `[]` under
Python truthiness, so both are embedded as `[]`). -/
structure Config where
  additional_search_fields : List String
  deriving DecidableEq, Repr

/-- Python `a + b` on parser values: string concatenation or list
concatenation; mixing the two raises `TypeError`. -/
def pyAdd : Value → Value → Except String Value
  | .str a, .str b => .ok (.str (a ++ b))
  | .list a, .list b => .ok (.list (a ++ b))
  | _, _ => .error "TypeError"

/-- Python `a == b` on parser values (values of different types compare
unequal). -/
def pyEq : Value → Value → Bool
  | .str a, .str b => a == b
  | .list a, .list b => a == b
  | _, _ => false

/-- Python `str.capitalize`: first character uppercased, the rest
lowercased; empty string unchanged. -/
def pyCapitalize (s : String) : String :=
  match s.data with
  | [] => ""
  | c :: cs => String.mk (c.toUpper :: cs.map Char.toLower)

/-- Python `a.split(',')[0]`: the part of `a` before its first comma. -/
def beforeComma (a : String) : String :=
  String.mk (a.data.takeWhile (fun c => c != ','))

/-- The `# Year` section of `get_item` (lines 81-88): `i['year']`, else
`i['issued']`, else the placeholder string. -/
def pyYear (i : RawEntry) : Value :=
  match lookupField i "year" with
  | some v => v
  | none =>
    match lookupField i "issued" with
    | some v => v
    | none => .str "<no date>"

/-- The `# Authors` section of `get_item` (lines 90-97):
`', '.join([a.split(',')[0] for a in authors])` when `author` is present
(iterating a string yields its one-character strings), else the
placeholder. -/
def pyAuthors (i : RawEntry) : String :=
  match lookupField i "author" with
  | some (.list l) => String.intercalate ", " (l.map beforeComma)
  | some (.str s) => String.intercalate ", " (s.data.map (fun c => beforeComma (String.singleton c)))
  | none => "<no authors>"

/-- The `# Title` section of `get_item` (lines 99-103):
`title = publication = i['title']` binds both on success; on `KeyError`
only `title = ''` is bound, leaving the local `publication` unassigned
(`none`). -/
def pyTitle (i : RawEntry) : Value × Option Value :=
  match lookupField i "title" with
  | some v => (v, some v)
  | none => (.str "", none)

/-- The volume/number decoration of the journal branch of `get_item`
(lines 111-114): `publication + ' (' + i['volume'] + ')'` when `volume` is
present, then `publication + ' ' + i['number']` when `number` is
present. -/
def withVolNum (i : RawEntry) (p0 : Value) : Except String Value := do
  let p1 ←
    match lookupField i "volume" with
    | none => pure p0
    | some v => do
      let a ← pyAdd p0 (.str " (")
      let b ← pyAdd a v
      pyAdd b (.str ")")
  match lookupField i "number" with
  | none => pure p1
  | some n => do
    let c ← pyAdd p1 (.str " ")
    pyAdd c n

/-- The `# Publication` section of `get_item` (lines 105-123).  With a
journal-like field, `journal` is preferred over `journaltitle` and
decorated with volume/number.  Otherwise the code reads the local
`publication`: if `title` was missing that local was never assigned and
`UnboundLocalError` is raised; when it equals `title` the fallback chain
`institution`, `booktitle`, `i['ENTRYTYPE'].capitalize()` runs, the last
step uncaught (`KeyError` when `ENTRYTYPE` is missing, `AttributeError`
when it is a list). -/
def pyPublication (i : RawEntry) (title : Value) (publ : Option Value) : Except String Value :=
  match lookupField i "journal", lookupField i "journaltitle" with
  | some j, _ => withVolNum i j
  | none, some jt => withVolNum i jt
  | none, none =>
    match publ with
    | none => .error "UnboundLocalError"
    | some p =>
      if pyEq p title then
        match lookupField i "institution" with
        | some v => .ok v
        | none =>
          match lookupField i "booktitle" with
          | some v => .ok v
          | none =>
            match lookupField i "ENTRYTYPE" with
            | some (.str s) => .ok (.str (pyCapitalize s))
            | some (.list _) => .error "AttributeError"
            | none => .error "KeyError"
      else .ok p

/-- Python `search_key += r` for a string right operand: string
concatenation when `search_key` is a string; in-place list extension with
the one-character strings of `r` when `search_key` is a list. -/
def skStep (acc : Value) (r : String) : Value :=
  match acc with
  | .str s => .str (s ++ r)
  | .list l => .list (l ++ r.data.map String.singleton)

/-- When the accumulator is the list aliased to the entry's `ID` binding,
an in-place extension is visible through the dict; a string accumulator is
immutable and leaves the entry alone. -/
def writeBack (i : RawEntry) (acc : Value) : RawEntry :=
  match acc with
  | .list _ => setVal i "ID" acc
  | .str _ => i

/-- Python `', '.join(i[field]) if isinstance(i[field], list) else i[field]`. -/
def joinVal : Value → String
  | .list l => String.intercalate ", " l
  | .str s => s

/-- The `for field in additional_search_fields` loop of `get_item`
(lines 130-138): each configured field present on the entry appends
`result + ' | '` to the accumulator; a missing field (`KeyError`) is
skipped.  The entry is threaded because a list accumulator aliases the
entry's `ID` binding. -/
def skLoop : List String → RawEntry → Value → Value × RawEntry
  | [], i, acc => (acc, i)
  | f :: rest, i, acc =>
    match lookupField i f with
    | none => skLoop rest i acc
    | some v =>
      let acc' := skStep acc (joinVal v ++ " | ")
      skLoop rest (writeBack i acc') acc'

/-- The `# Set search key` section of `get_item` (lines 125-138):
`search_key = i['ID']` (an uncaught `KeyError` when absent); when the
configured list is non-empty, `search_key += ' | '` and then the field
loop.  Returns the final accumulator and the post-call entry. -/
def pySearchKey (asf : List String) (i : RawEntry) : Except String (Value × RawEntry) :=
  match lookupField i "ID" with
  | none => .error "KeyError"
  | some sk0 =>
    match asf with
    | [] => .ok (sk0, i)
    | _ :: _ =>
      let sk1 := skStep sk0 " | "
      .ok (skLoop asf (writeBack i sk1) sk1)

/-- The part of the search key after `ID + ' | '` as the specification
describes it: for each configured field, in order, the field's value
(lists joined with `", "`) followed by `" | "` when the field is present,
and nothing when it is absent. -/
def searchTail (i : RawEntry) : List String → String
  | [] => ""
  | f :: rest =>
    (match lookupField i f with
     | none => ""
     | some v => joinVal v ++ " | ") ++ searchTail i rest

/-- Embedding of `CiteBibtex.get_item` (lines 80-140).  Sections run in
source order: year, authors, title, publication, search key, and finally
the returned list `[search_key, year + ' | ' + authors, title,
publication]`, whose concatenation raises `TypeError` when `year` is a
list.  The post-call entry is returned alongside the record (the search
key section can extend a list-valued `ID` in place). -/
def get_item (cfg : Config) (i : RawEntry) : Except String (DisplayRecord × RawEntry) :=
  let year := pyYear i
  let authors := pyAuthors i
  let tp := pyTitle i
  match pyPublication i tp.1 tp.2 with
  | .error e => .error e
  | .ok publication =>
    match pySearchKey cfg.additional_search_fields i with
    | .error e => .error e
    | .ok (sk, i') =>
      match year with
      | .list _ => .error "TypeError"
      | .str y =>
        .ok ({ searchKey := sk, dateAuthors := y ++ " | " ++ authors,
               title := tp.1, publication := publication }, i')

/-- The mutable plugin state: `self.last_modified`, `self.refs`,
`self.ref_keys`, each keyed by bibliography file path.  Stored keys are
`Value`s because line 154 stores whatever `refs[i]['ID']` holds. -/
structure PluginState where
  last_modified : String → Option Nat
  refs : String → Option (List DisplayRecord)
  ref_keys : String → Option (List Value)

/-- Record a modification time for a path. -/
def setLM (st : PluginState) (p : String) (m : Nat) : PluginState :=
  { st with last_modified := fun q => if q = p then some m else st.last_modified q }

/-- Embedding of `CiteBibtex.check_modified` (lines 63-78).  The
`os.path.getmtime` result is passed in (`none` embeds the
`FileNotFoundError` case, which is re-raised before any state change).
First sight of a path records its mtime and reports stale; afterwards
stale iff the mtime strictly grew, recording the new mtime exactly in
that case. -/
def check_modified (st : PluginState) (p : String) (mtime : Option Nat) :
    Except String Bool × PluginState :=
  match mtime with
  | none => (.error "FileNotFoundError", st)
  | some m =>
    match st.last_modified p with
    | none => (.ok true, setLM st p m)
    | some t =>
      if t < m then (.ok true, setLM st p m)
      else (.ok false, st)

/-- The list comprehension `[self.get_item(refs[i]) for i in refs]`
(line 153): left to right, first raised exception wins, entries carry
their post-`get_item` state. -/
def map_get_item (cfg : Config) : List RawEntry → Except String (List (DisplayRecord × RawEntry))
  | [] => .ok []
  | e :: rest =>
    match get_item cfg e with
    | .error err => .error err
    | .ok pr =>
      match map_get_item cfg rest with
      | .error err => .error err
      | .ok prs => .ok (pr :: prs)

/-- The list comprehension `[refs[i]['ID'] for i in refs]` (line 154),
reading the entries as `get_item` left them. -/
def map_key : List (DisplayRecord × RawEntry) → Except String (List Value)
  | [] => .ok []
  | pr :: rest =>
    match lookupField pr.2 "ID" with
    | none => .error "KeyError"
    | some v =>
      match map_key rest with
      | .error err => .error err
      | .ok vs => .ok (v :: vs)

/-- Embedding of `CiteBibtex.update_refs` (lines 142-154).  The external
parse (`open` + `parser.parse_file` + `entries_dict` iteration order) is
passed in as an `Except`-wrapped entry list; a parse failure, or a
`get_item` failure, raises with the state untouched.  On success
`self.refs[ref_file]` is assigned (line 153) and then
`self.ref_keys[ref_file]` (line 154) - the two assignments are separate
statements, so a failure between them would leave only the first. -/
def update_refs (cfg : Config) (st : PluginState) (p : String)
    (parsed : Except String (List RawEntry)) : Except String Unit × PluginState :=
  match parsed with
  | .error e => (.error e, st)
  | .ok entries =>
    match map_get_item cfg entries with
    | .error e => (.error e, st)
    | .ok pairs =>
      let st1 := { st with
        refs := fun q => if q = p then some (pairs.map (fun pr => pr.1)) else st.refs q }
      match map_key pairs with
      | .error e => (.error e, st1)
      | .ok keyVals =>
        (.ok (), { st1 with
          ref_keys := fun q => if q = p then some keyVals else st1.ref_keys q })

/-- Embedding of the load portion of `CiteBibtex.show_selector`
(lines 165-170) - the `ensureFresh` operation: run `check_modified`, on
stale run `update_refs`, then read `self.refs[ref_source]` (and the
parallel key list consumed later by `insert_ref`).  Every raised
exception is returned together with the state it left behind. -/
def ensure_fresh (cfg : Config) (st : PluginState) (p : String) (mtime : Option Nat)
    (parsed : Except String (List RawEntry)) :
    Except String (List DisplayRecord × List Value) × PluginState :=
  match check_modified st p mtime with
  | (.error e, st1) => (.error e, st1)
  | (.ok stale, st1) =>
    match (if stale then update_refs cfg st1 p parsed else (.ok (), st1)) with
    | (.error e, st2) => (.error e, st2)
    | (.ok _, st2) =>
      match st2.refs p, st2.ref_keys p with
      | some r, some k => (.ok (r, k), st2)
      | _, _ => (.error "KeyError", st2)

/-- Python `str.rfind(c)` on a character list: the index of the last
occurrence, `-1` when absent. -/
def rfindIdx : List Char → Char → Int
  | [], _ => -1
  | x :: xs, c =>
    if rfindIdx xs c ≥ 0 then rfindIdx xs c + 1
    else if x = c then 0 else -1

/-- Embedding of `os.path.splitext` (posixpath `_splitext`): split at the
last dot that lies after the last slash, provided some character of the
basename before that dot is not itself a dot (so purely-leading dots
never start an extension). -/
def py_splitext (p : String) : String × String :=
  let l := p.data
  let sepIndex := rfindIdx l '/'
  let dotIndex := rfindIdx l '.'
  if sepIndex < dotIndex then
    if ((l.take dotIndex.toNat).drop (sepIndex + 1).toNat).any (fun c => c != '.') then
      (String.mk (l.take dotIndex.toNat), String.mk (l.drop dotIndex.toNat))
    else (p, "")
  else (p, "")

/-- Embedding of the output-path computation of
`CiteBibtex.extract_citations` (lines 187-190): `basefile, extension =
os.path.splitext(current_file); bibsubset_file = basefile + '.bib'`. -/
def extract_output (current_file : String) : String :=
  (py_splitext current_file).1 ++ ".bib"

/-- The volume decoration of the specification: `" (" ++ volume ++ ")"`
when present, nothing otherwise. -/
def volSuffix : Option String → String
  | some vv => " (" ++ vv ++ ")"
  | none => ""

/-- The number decoration of the specification: `" " ++ number` when
present, nothing otherwise. -/
def numSuffix : Option String → String
  | some nn => " " ++ nn
  | none => ""

/-- The date of the specification: `year` when present, else `issued`,
else the placeholder. -/
def dateSpec : Option String → Option String → String
  | some s, _ => s
  | none, some s => s
  | none, none => "<no date>"

/-- The authors of the specification: the comma-space join of the part
before the first comma of each author string, or the placeholder. -/
def authorsSpec : Option (List String) → String
  | some l => String.intercalate ", " (l.map beforeComma)
  | none => "<no authors>"

/-! ### Concrete fixtures used to instantiate the theorems -/

/-- A plugin state in which path `"b"` is loaded: empty cached record and
key lists, and a recorded modification time of 1. -/
def stB : PluginState where
  last_modified := fun q => if q = "b" then some 1 else none
  refs := fun q => if q = "b" then some [] else none
  ref_keys := fun q => if q = "b" then some [] else none

/-- A journal-article entry: `journal` X, `volume` 3, `number` 2. -/
def eJ : RawEntry :=
  [("ID", Value.str "k"), ("journal", Value.str "X"),
   ("volume", Value.str "3"), ("number", Value.str "2")]

/-- The display record `get_item` produces for `eJ` with no additional
search fields. -/
def dJ : DisplayRecord where
  searchKey := Value.str "k"
  dateAuthors := "<no date> | <no authors>"
  title := Value.str ""
  publication := Value.str "X (3) 2"

/-- An entry with `issued`, a two-element `author` list, a `title` and an
`ENTRYTYPE`. -/
def eI : RawEntry :=
  [("ID", Value.str "k"), ("issued", Value.str "2020"),
   ("author", Value.list ["Smith, John", "Doe, Jane"]),
   ("title", Value.str "T"), ("ENTRYTYPE", Value.str "misc")]

/-- The display record `get_item` produces for `eI` with no additional
search fields. -/
def dI : DisplayRecord where
  searchKey := Value.str "k"
  dateAuthors := "2020 | Smith, Doe"
  title := Value.str "T"
  publication := Value.str "Misc"

/-- A minimal well-formed entry: `ID`, `title` and `ENTRYTYPE` only. -/
def eX : RawEntry :=
  [("ID", Value.str "a"), ("title", Value.str "T"), ("ENTRYTYPE", Value.str "misc")]

/-- The display record `get_item` produces for `eX` when the configured
search-field list is `["x"]` (the field `x` is absent from `eX`). -/
def dX : DisplayRecord where
  searchKey := Value.str "a | "
  dateAuthors := "<no date> | <no authors>"
  title := Value.str "T"
  publication := Value.str "Misc"

/-- `eX` extended with a field `x` of value `v`. -/
def eS : RawEntry :=
  [("ID", Value.str "a"), ("title", Value.str "T"),
   ("ENTRYTYPE", Value.str "misc"), ("x", Value.str "v")]

/-- The display record `get_item` produces for `eS` when the configured
search-field list is `["x", "y"]`. -/
def dS : DisplayRecord where
  searchKey := Value.str "a | v | "
  dateAuthors := "<no date> | <no authors>"
  title := Value.str "T"
  publication := Value.str "Misc"

/-! ### Helper lemmas about the projection -/

theorem lookupField_setVal_self (i : RawEntry) (k : String) (v : Value)
    (h : (lookupField i k).isSome) : lookupField (setVal i k v) k = some v := by
  induction i with
  | nil => simp [lookupField] at h
  | cons a rest ih =>
    by_cases hk : a.1 == k
    · simp [lookupField, setVal, List.find?, hk]
    · have h' : (lookupField rest k).isSome := by
        simpa [lookupField, List.find?, hk] using h
      simpa [lookupField, setVal, List.find?, hk] using ih h'

theorem writeBack_ID (i : RawEntry) (acc : Value)
    (h : (lookupField i "ID").isSome) : (lookupField (writeBack i acc) "ID").isSome := by
  cases acc with
  | str s => simpa [writeBack]
  | list l => simp [writeBack, lookupField_setVal_self i "ID" _ h]

theorem skLoop_ID (fields : List String) (i : RawEntry) (acc : Value)
    (h : (lookupField i "ID").isSome) :
    (lookupField (skLoop fields i acc).2 "ID").isSome := by
  induction fields generalizing i acc with
  | nil => simpa [skLoop]
  | cons f rest ih =>
    simp only [skLoop]
    cases hf : lookupField i f with
    | none => exact ih i acc h
    | some v => exact ih _ _ (writeBack_ID i _ h)

theorem skLoop_str (fields : List String) (i : RawEntry) (s : String) :
    skLoop fields i (.str s) = (.str (s ++ searchTail i fields), i) := by
  induction fields generalizing s with
  | nil => simp [skLoop, searchTail]
  | cons f rest ih =>
    simp only [skLoop, searchTail]
    cases hf : lookupField i f with
    | none => rw [ih]; simp
    | some v =>
      simp only [skStep, writeBack]
      rw [ih]
      simp [String.append_assoc]

theorem pySearchKey_ID (asf : List String) (i : RawEntry) (sk : Value) (i' : RawEntry)
    (h : pySearchKey asf i = .ok (sk, i')) : (lookupField i' "ID").isSome := by
  unfold pySearchKey at h
  cases hid : lookupField i "ID" with
  | none => rw [hid] at h; exact absurd h (by simp)
  | some sk0 =>
    rw [hid] at h
    cases asf with
    | nil =>
      simp only [Except.ok.injEq, Prod.mk.injEq] at h
      rw [← h.2, hid]
      simp
    | cons f rest =>
      simp only [Except.ok.injEq] at h
      have : (lookupField (writeBack i (skStep sk0 " | ")) "ID").isSome :=
        writeBack_ID i _ (by rw [hid]; simp)
      have h2 := skLoop_ID (f :: rest) (writeBack i (skStep sk0 " | ")) (skStep sk0 " | ") this
      rw [h] at h2
      exact h2

theorem get_item_ok_elim (cfg : Config) (i : RawEntry) (d : DisplayRecord) (i' : RawEntry)
    (hok : get_item cfg i = .ok (d, i')) :
    ∃ y pub sk, pyYear i = .str y ∧
      pyPublication i (pyTitle i).1 (pyTitle i).2 = .ok pub ∧
      pySearchKey cfg.additional_search_fields i = .ok (sk, i') ∧
      d = { searchKey := sk, dateAuthors := y ++ " | " ++ pyAuthors i,
            title := (pyTitle i).1, publication := pub } := by
  simp only [get_item] at hok
  cases hpub : pyPublication i (pyTitle i).1 (pyTitle i).2 with
  | error e => rw [hpub] at hok; exact absurd hok (by simp)
  | ok pub =>
    rw [hpub] at hok
    cases hsk : pySearchKey cfg.additional_search_fields i with
    | error e => rw [hsk] at hok; exact absurd hok (by simp)
    | ok pr =>
      obtain ⟨sk, i''⟩ := pr
      rw [hsk] at hok
      cases hy : pyYear i with
      | list l => rw [hy] at hok; exact absurd hok (by simp)
      | str y =>
        rw [hy] at hok
        simp only [Except.ok.injEq, Prod.mk.injEq] at hok
        exact ⟨y, pub, sk, rfl, rfl, by rw [hok.2], hok.1.symm⟩

theorem get_item_ID (cfg : Config) (i : RawEntry) (d : DisplayRecord) (i' : RawEntry)
    (hok : get_item cfg i = .ok (d, i')) : (lookupField i' "ID").isSome := by
  obtain ⟨y, pub, sk, _, _, hsk, _⟩ := get_item_ok_elim cfg i d i' hok
  exact pySearchKey_ID _ i sk i' hsk

/-! ### Helper lemmas about the cache update -/

theorem map_get_item_length (cfg : Config) (entries : List RawEntry)
    (pairs : List (DisplayRecord × RawEntry))
    (h : map_get_item cfg entries = .ok pairs) : pairs.length = entries.length := by
  induction entries generalizing pairs with
  | nil => simp only [map_get_item, Except.ok.injEq] at h; simp [← h]
  | cons e rest ih =>
    cases hg : get_item cfg e with
    | error err => simp [map_get_item, hg] at h
    | ok pr =>
      cases hr : map_get_item cfg rest with
      | error err => simp [map_get_item, hg, hr] at h
      | ok prs =>
        simp only [map_get_item, hg, hr, Except.ok.injEq] at h
        simp [← h, ih prs hr]

theorem map_get_item_get (cfg : Config) (entries : List RawEntry)
    (pairs : List (DisplayRecord × RawEntry))
    (h : map_get_item cfg entries = .ok pairs) :
    ∀ (j : Nat) (e : RawEntry) (pr : DisplayRecord × RawEntry),
      entries[j]? = some e → pairs[j]? = some pr → get_item cfg e = .ok pr := by
  induction entries generalizing pairs with
  | nil => intro j e pr he _; simp at he
  | cons a rest ih =>
    intro j e pr he hp
    cases hg : get_item cfg a with
    | error err => simp [map_get_item, hg] at h
    | ok pr0 =>
      cases hr : map_get_item cfg rest with
      | error err => simp [map_get_item, hg, hr] at h
      | ok prs =>
        simp only [map_get_item, hg, hr, Except.ok.injEq] at h
        subst h
        cases j with
        | zero =>
          simp only [List.getElem?_cons_zero, Option.some.injEq] at he hp
          rw [← he, ← hp]; exact hg
        | succ n =>
          simp only [List.getElem?_cons_succ] at he hp
          exact ih prs hr n e pr he hp

theorem map_key_length (pairs : List (DisplayRecord × RawEntry)) (ks : List Value)
    (h : map_key pairs = .ok ks) : ks.length = pairs.length := by
  induction pairs generalizing ks with
  | nil => simp only [map_key, Except.ok.injEq] at h; simp [← h]
  | cons pr rest ih =>
    cases hl : lookupField pr.2 "ID" with
    | none => simp [map_key, hl] at h
    | some v =>
      cases hr : map_key rest with
      | error err => simp [map_key, hl, hr] at h
      | ok vs =>
        simp only [map_key, hl, hr, Except.ok.injEq] at h
        simp [← h, ih vs hr]

theorem map_key_get (pairs : List (DisplayRecord × RawEntry)) (ks : List Value)
    (h : map_key pairs = .ok ks) :
    ∀ (j : Nat) (pr : DisplayRecord × RawEntry) (kv : Value),
      pairs[j]? = some pr → ks[j]? = some kv → lookupField pr.2 "ID" = some kv := by
  induction pairs generalizing ks with
  | nil => intro j pr kv hp _; simp at hp
  | cons a rest ih =>
    intro j pr kv hp hk
    cases hl : lookupField a.2 "ID" with
    | none => simp [map_key, hl] at h
    | some v =>
      cases hr : map_key rest with
      | error err => simp [map_key, hl, hr] at h
      | ok vs =>
        simp only [map_key, hl, hr, Except.ok.injEq] at h
        subst h
        cases j with
        | zero =>
          simp only [List.getElem?_cons_zero, Option.some.injEq] at hp hk
          rw [← hp, ← hk]; exact hl
        | succ n =>
          simp only [List.getElem?_cons_succ] at hp hk
          exact ih vs hr n pr kv hp hk

theorem map_key_total (cfg : Config) (entries : List RawEntry)
    (pairs : List (DisplayRecord × RawEntry))
    (h : map_get_item cfg entries = .ok pairs) : ∃ ks, map_key pairs = .ok ks := by
  induction entries generalizing pairs with
  | nil =>
    simp only [map_get_item, Except.ok.injEq] at h
    exact ⟨[], by rw [← h]; rfl⟩
  | cons e rest ih =>
    cases hg : get_item cfg e with
    | error err => simp [map_get_item, hg] at h
    | ok pr =>
      cases hr : map_get_item cfg rest with
      | error err => simp [map_get_item, hg, hr] at h
      | ok prs =>
        simp only [map_get_item, hg, hr, Except.ok.injEq] at h
        obtain ⟨ks, hks⟩ := ih prs hr
        obtain ⟨v, hv⟩ := Option.isSome_iff_exists.mp (get_item_ID cfg e pr.1 pr.2 (by rw [hg]))
        refine ⟨v :: ks, ?_⟩
        rw [← h]
        simp [map_key, hv, hks]

theorem update_refs_error (cfg : Config) (st : PluginState) (p : String)
    (parsed : Except String (List RawEntry)) (e : String)
    (h : (update_refs cfg st p parsed).1 = .error e) : (update_refs cfg st p parsed).2 = st := by
  cases parsed with
  | error pe => rfl
  | ok entries =>
    cases hg : map_get_item cfg entries with
    | error err => simp [update_refs, hg]
    | ok pairs =>
      obtain ⟨ks, hks⟩ := map_key_total cfg entries pairs hg
      simp [update_refs, hg, hks] at h

theorem update_refs_ok (cfg : Config) (st : PluginState) (p : String)
    (parsed : Except String (List RawEntry))
    (h : (update_refs cfg st p parsed).1 = .ok ()) :
    ∃ entries pairs keyVals,
      parsed = .ok entries ∧
      map_get_item cfg entries = .ok pairs ∧
      map_key pairs = .ok keyVals ∧
      (update_refs cfg st p parsed).2.last_modified = st.last_modified ∧
      (update_refs cfg st p parsed).2.refs p = some (pairs.map (fun pr => pr.1)) ∧
      (update_refs cfg st p parsed).2.ref_keys p = some keyVals ∧
      (∀ q, q ≠ p → (update_refs cfg st p parsed).2.refs q = st.refs q ∧
        (update_refs cfg st p parsed).2.ref_keys q = st.ref_keys q) := by
  cases parsed with
  | error pe => simp [update_refs] at h
  | ok entries =>
    cases hg : map_get_item cfg entries with
    | error err => simp [update_refs, hg] at h
    | ok pairs =>
      cases hks : map_key pairs with
      | error err => simp [update_refs, hg, hks] at h
      | ok keyVals =>
        refine ⟨entries, pairs, keyVals, rfl, hg, hks, ?_, ?_, ?_, ?_⟩
        · simp [update_refs, hg, hks]
        · simp [update_refs, hg, hks]
        · simp [update_refs, hg, hks]
        · intro q hq
          simp [update_refs, hg, hks, if_neg hq]

/-! ### Helper lemmas about the extraction output path -/

theorem rfindIdx_neg (l : List Char) (c : Char) (h : ∀ x ∈ l, x ≠ c) : rfindIdx l c = -1 := by
  induction l with
  | nil => rfl
  | cons x xs ih =>
    have hx : x ≠ c := h x (List.mem_cons_self x xs)
    have hxs : rfindIdx xs c = -1 := ih (fun y hy => h y (List.mem_cons_of_mem x hy))
    simp [rfindIdx, hxs, hx]

theorem rfindIdx_append_cons (s e : List Char) (c : Char) (he : ∀ x ∈ e, x ≠ c) :
    rfindIdx (s ++ c :: e) c = s.length := by
  induction s with
  | nil => simp [rfindIdx, rfindIdx_neg e c he]
  | cons a s' ih =>
    have hge : rfindIdx (s' ++ c :: e) c ≥ 0 := by rw [ih]; exact Int.natCast_nonneg _
    show (if rfindIdx (s' ++ c :: e) c ≥ 0 then rfindIdx (s' ++ c :: e) c + 1
          else if a = c then 0 else -1) = ((s'.length + 1 : Nat) : Int)
    rw [if_pos hge, ih]
    push_cast
    ring

theorem py_splitext_of (stem ext : String) (hs : stem ≠ "")
    (hsd : ∀ c ∈ stem.data, c ≠ '.' ∧ c ≠ '/') (hed : ∀ c ∈ ext.data, c ≠ '.' ∧ c ≠ '/') :
    py_splitext (stem ++ "." ++ ext) = (stem, "." ++ ext) := by
  have hdata : (stem ++ "." ++ ext).data = stem.data ++ '.' :: ext.data := by
    simp [String.data_append]
  have hsep : rfindIdx (stem.data ++ '.' :: ext.data) '/' = -1 := by
    apply rfindIdx_neg
    intro x hx
    rcases List.mem_append.mp hx with hx | hx
    · exact (hsd x hx).2
    · rcases List.mem_cons.mp hx with hx | hx
      · rw [hx]; decide
      · exact (hed x hx).2
  have hdot : rfindIdx (stem.data ++ '.' :: ext.data) '.' = stem.data.length :=
    rfindIdx_append_cons _ _ _ (fun x hx => (hed x hx).1)
  have hne : stem.data ≠ [] := fun hnil => hs (String.ext hnil)
  have hany : (stem.data.any (fun c => c != '.')) = true := by
    cases hd : stem.data with
    | nil => exact absurd hd hne
    | cons c rest =>
      have : c ≠ '.' := (hsd c (by rw [hd]; exact List.mem_cons_self c rest)).1
      simp [List.any_cons, this]
  simp only [py_splitext, hdata, hsep, hdot]
  rw [if_pos (by omega)]
  have htoNat : ((stem.data.length : Int)).toNat = stem.data.length := Int.toNat_natCast _
  have hzero : ((-1 : Int) + 1).toNat = 0 := by decide
  rw [htoNat, hzero, List.drop_zero, List.take_left, if_pos hany, List.drop_left]
  refine Prod.ext ?_ ?_
  · exact String.ext rfl
  · refine String.ext ?_
    simp [String.data_append]

/-! ### Helper lemmas about the state machine -/

theorem withVolNum_str (i : RawEntry) (j : String) (v n : Option String)
    (hv : lookupField i "volume" = Option.map Value.str v)
    (hn : lookupField i "number" = Option.map Value.str n) :
    withVolNum i (.str j) = .ok (.str (j ++ volSuffix v ++ numSuffix n)) := by
  cases v with
  | none =>
    cases n with
    | none =>
      simp only [withVolNum, hv, hn, Option.map]
      show Except.ok (Value.str j) = _
      simp [volSuffix, numSuffix, String.append_empty]
    | some nn =>
      simp only [withVolNum, hv, hn, Option.map]
      show Except.ok (Value.str (j ++ " " ++ nn)) = _
      simp [volSuffix, numSuffix, String.append_empty, String.append_assoc]
  | some vv =>
    cases n with
    | none =>
      simp only [withVolNum, hv, hn, Option.map]
      show Except.ok (Value.str (j ++ " (" ++ vv ++ ")")) = _
      simp [volSuffix, numSuffix, String.append_empty, String.append_assoc]
    | some nn =>
      simp only [withVolNum, hv, hn, Option.map]
      show Except.ok (Value.str (j ++ " (" ++ vv ++ ")" ++ " " ++ nn)) = _
      simp [volSuffix, numSuffix, String.append_assoc]
      rw [← String.append_assoc (")" : String) " " nn]
      rfl

theorem check_modified_preserves (st : PluginState) (q : String) (mt : Option Nat) :
    (check_modified st q mt).2.refs = st.refs ∧ (check_modified st q mt).2.ref_keys = st.ref_keys := by
  cases mt with
  | none => exact ⟨rfl, rfl⟩
  | some m =>
    cases hlm : st.last_modified q with
    | none => simp [check_modified, hlm, setLM]
    | some t =>
      by_cases htm : t < m <;> simp [check_modified, hlm, htm, setLM]

theorem ensure_fresh_ok_elim (cfg : Config) (st0 : PluginState) (p : String) (m : Nat)
    (parsed : Except String (List RawEntry)) (r : List DisplayRecord) (k : List Value)
    (st1 : PluginState)
    (h : ensure_fresh cfg st0 p (some m) parsed = (.ok (r, k), st1)) :
    (∃ t, st1.last_modified p = some t ∧ ¬ t < m) ∧
      st1.refs p = some r ∧ st1.ref_keys p = some k := by
  cases hlm : st0.last_modified p with
  | none =>
    rcases hup : update_refs cfg (setLM st0 p m) p parsed with ⟨u, st2⟩
    cases u with
    | error e => simp [ensure_fresh, check_modified, hlm, hup] at h
    | ok uu =>
      cases uu
      have h1 : (update_refs cfg (setLM st0 p m) p parsed).1 = .ok () := by rw [hup]
      obtain ⟨entries, pairs, keyVals, _, _, _, hLM, hrefs, hkeys, _⟩ :=
        update_refs_ok cfg (setLM st0 p m) p parsed h1
      simp only [hup] at hLM hrefs hkeys
      simp [ensure_fresh, check_modified, hlm, hup, hrefs, hkeys] at h
      obtain ⟨⟨hr, hk⟩, hst⟩ := h
      subst hst
      refine ⟨⟨m, ?_, Nat.lt_irrefl m⟩, by rw [hrefs, hr], by rw [hkeys, hk]⟩
      rw [hLM]
      simp [setLM]
  | some t =>
    by_cases htm : t < m
    · rcases hup : update_refs cfg (setLM st0 p m) p parsed with ⟨u, st2⟩
      cases u with
      | error e => simp [ensure_fresh, check_modified, hlm, htm, hup] at h
      | ok uu =>
        cases uu
        have h1 : (update_refs cfg (setLM st0 p m) p parsed).1 = .ok () := by rw [hup]
        obtain ⟨entries, pairs, keyVals, _, _, _, hLM, hrefs, hkeys, _⟩ :=
          update_refs_ok cfg (setLM st0 p m) p parsed h1
        simp only [hup] at hLM hrefs hkeys
        simp [ensure_fresh, check_modified, hlm, htm, hup, hrefs, hkeys] at h
        obtain ⟨⟨hr, hk⟩, hst⟩ := h
        subst hst
        refine ⟨⟨m, ?_, Nat.lt_irrefl m⟩, by rw [hrefs, hr], by rw [hkeys, hk]⟩
        rw [hLM]
        simp [setLM]
    · simp [ensure_fresh, check_modified, hlm, htm] at h
      split at h
      · simp only [Prod.mk.injEq, Except.ok.injEq] at h
        obtain ⟨⟨hr2, hk2⟩, hst⟩ := h
        subst hst
        rename_i rs ks heq1 heq2
        exact ⟨⟨t, hlm, htm⟩, by rw [heq1, hr2], by rw [heq2, hk2]⟩
      · simp at h

/-! ### Claim theorems -/

/-- C1: the claim states that every RawEntry declaring `ENTRYTYPE` and `ID`
projects to a DisplayRecord without raising, with a non-empty publication,
including entries that also lack a `title` field.  The code refutes the
`title`-less case: on an entry with `ENTRYTYPE` and `ID` but no `title`
and no journal-like field, the local `publication` is never assigned, so
`get_item` raises `UnboundLocalError` at the comparison
`publication == title` instead of falling back to the capitalized entry
type. -/
theorem c1_get_item_raises_without_title :
    get_item (Config.mk []) [("ENTRYTYPE", Value.str "misc"), ("ID", Value.str "x")] =
      .error "UnboundLocalError" := rfl

/-- C2 counterexample: with path `b` loaded at recorded mtime 1, a
selection triggered at mtime 2 whose parse fails aborts with the parse
error, yet the recorded modification time for `b` now reads 2 instead of
the prior 1 - the triggering operation does mutate the recorded last-seen
modification time, refuting the claim that it is exactly as before the
call. -/
theorem c2_counterexample_mtime_mutated :
    (ensure_fresh (Config.mk []) stB "b" (some 2) (.error "ParseFailure")).1 =
      .error "ParseFailure" ∧
    (ensure_fresh (Config.mk []) stB "b" (some 2) (.error "ParseFailure")).2.last_modified "b" =
      some 2 ∧
    stB.last_modified "b" = some 1 :=
  ⟨rfl, rfl, rfl⟩

/-- C2 (amended): if the load step of the triggering operation fails with
any error, the cached record lists and cached key lists are exactly as
they were before the call, for every path; the recorded last-seen
modification time of the requested path is either unchanged or already
advanced to the modification time observed by the staleness check that
preceded the failed load, and is unchanged for every other path. -/
theorem c2_ensure_fresh_failure_preserves_cache (cfg : Config) (st : PluginState)
    (p : String) (mtime : Option Nat) (parsed : Except String (List RawEntry)) (e : String)
    (h : (ensure_fresh cfg st p mtime parsed).1 = .error e) :
    (ensure_fresh cfg st p mtime parsed).2.refs = st.refs ∧
    (ensure_fresh cfg st p mtime parsed).2.ref_keys = st.ref_keys ∧
    ((ensure_fresh cfg st p mtime parsed).2.last_modified p = st.last_modified p ∨
      (ensure_fresh cfg st p mtime parsed).2.last_modified p = mtime) ∧
    ∀ q, q ≠ p → (ensure_fresh cfg st p mtime parsed).2.last_modified q = st.last_modified q := by
  cases mtime with
  | none => exact ⟨rfl, rfl, Or.inl rfl, fun q _ => rfl⟩
  | some m =>
    cases hlm : st.last_modified p with
    | none =>
      rcases hup : update_refs cfg (setLM st p m) p parsed with ⟨u, st2⟩
      cases u with
      | ok uu =>
        cases uu
        have h1 : (update_refs cfg (setLM st p m) p parsed).1 = .ok () := by rw [hup]
        obtain ⟨entries, pairs, keyVals, _, _, _, _, hrefs, hkeys, _⟩ :=
          update_refs_ok cfg (setLM st p m) p parsed h1
        simp only [hup] at hrefs hkeys
        simp [ensure_fresh, check_modified, hlm, hup, hrefs, hkeys] at h
      | error e2 =>
        have h2 : (update_refs cfg (setLM st p m) p parsed).2 = setLM st p m :=
          update_refs_error cfg (setLM st p m) p parsed e2 (by rw [hup])
        simp only [hup] at h2
        subst h2
        have hE : ensure_fresh cfg st p (some m) parsed = (.error e2, setLM st p m) := by
          simp [ensure_fresh, check_modified, hlm, hup]
        rw [hE]
        refine ⟨rfl, rfl, Or.inr ?_, fun q hq => ?_⟩
        · simp [setLM]
        · simp [setLM, hq]
    | some t =>
      by_cases htm : t < m
      · rcases hup : update_refs cfg (setLM st p m) p parsed with ⟨u, st2⟩
        cases u with
        | ok uu =>
          cases uu
          have h1 : (update_refs cfg (setLM st p m) p parsed).1 = .ok () := by rw [hup]
          obtain ⟨entries, pairs, keyVals, _, _, _, _, hrefs, hkeys, _⟩ :=
            update_refs_ok cfg (setLM st p m) p parsed h1
          simp only [hup] at hrefs hkeys
          simp [ensure_fresh, check_modified, hlm, htm, hup, hrefs, hkeys] at h
        | error e2 =>
          have h2 : (update_refs cfg (setLM st p m) p parsed).2 = setLM st p m :=
            update_refs_error cfg (setLM st p m) p parsed e2 (by rw [hup])
          simp only [hup] at h2
          subst h2
          have hE : ensure_fresh cfg st p (some m) parsed = (.error e2, setLM st p m) := by
            simp [ensure_fresh, check_modified, hlm, htm, hup]
          rw [hE]
          refine ⟨rfl, rfl, Or.inr ?_, fun q hq => ?_⟩
          · simp [setLM]
          · simp [setLM, hq]
      · cases hr : st.refs p with
        | some rs =>
          cases hk : st.ref_keys p with
          | some ks => simp [ensure_fresh, check_modified, hlm, htm, hr, hk] at h
          | none =>
            have hE : ensure_fresh cfg st p (some m) parsed = (.error "KeyError", st) := by
              simp [ensure_fresh, check_modified, hlm, htm, hr, hk]
            rw [hE]
            exact ⟨rfl, rfl, Or.inl hlm, fun q _ => rfl⟩
        | none =>
          have hE : ensure_fresh cfg st p (some m) parsed = (.error "KeyError", st) := by
            simp [ensure_fresh, check_modified, hlm, htm, hr]
          rw [hE]
          exact ⟨rfl, rfl, Or.inl hlm, fun q _ => rfl⟩

/-- C2 witness: instantiation of the amended theorem at the failed parse
of the counterexample state. -/
theorem c2_failure_preserves_cache_witness :
    (ensure_fresh (Config.mk []) stB "b" (some 2) (.error "ParseFailure")).2.refs = stB.refs ∧
    (ensure_fresh (Config.mk []) stB "b" (some 2) (.error "ParseFailure")).2.ref_keys =
      stB.ref_keys ∧
    ((ensure_fresh (Config.mk []) stB "b" (some 2) (.error "ParseFailure")).2.last_modified "b" =
        stB.last_modified "b" ∨
      (ensure_fresh (Config.mk []) stB "b" (some 2) (.error "ParseFailure")).2.last_modified "b" =
        some 2) ∧
    ∀ q, q ≠ "b" →
      (ensure_fresh (Config.mk []) stB "b" (some 2) (.error "ParseFailure")).2.last_modified q =
        stB.last_modified q :=
  c2_ensure_fresh_failure_preserves_cache (Config.mk []) stB "b" (some 2)
    (.error "ParseFailure") "ParseFailure" rfl

/-- C3 counterexample: with configured search fields `["x"]` and an entry
whose only fields are `ID = a`, `title` and `ENTRYTYPE` (so no configured
field is present), the search key is `a | ` - it carries a trailing
separator and does not equal the bare `ID`, refuting the claim. -/
theorem c3_counterexample_trailing_separator :
    get_item (Config.mk ["x"]) eX = .ok (dX, eX) ∧ dX.searchKey ≠ Value.str "a" :=
  ⟨rfl, by decide⟩

/-- C3 (amended): when the configured list of additional search fields is
non-empty and the `ID` value is a string, the search key is the `ID`
followed by `" | "`, followed, for each configured field present on the
entry in configured order, by the field value (lists joined with `", "`)
and a further `" | "`; absent fields contribute nothing.  In particular
the key always ends in the separator when search fields are configured,
and equals `ID ++ " | "` when no configured field is present. -/
theorem c3_get_item_searchKey (cfg : Config) (i : RawEntry) (d : DisplayRecord)
    (i' : RawEntry) (idv : String)
    (hok : get_item cfg i = .ok (d, i'))
    (hid : lookupField i "ID" = some (Value.str idv))
    (hne : cfg.additional_search_fields ≠ []) :
    d.searchKey = Value.str (idv ++ " | " ++ searchTail i cfg.additional_search_fields) := by
  obtain ⟨y, pub, sk, hy, hpub, hsk, hd⟩ := get_item_ok_elim cfg i d i' hok
  subst hd
  show sk = _
  rcases hasf : cfg.additional_search_fields with _ | ⟨f, rest⟩
  · exact absurd hasf hne
  · simp only [pySearchKey, hid, hasf] at hsk
    simp only [skStep, writeBack] at hsk
    rw [skLoop_str] at hsk
    simp only [Except.ok.injEq, Prod.mk.injEq] at hsk
    rw [← hsk.1]

/-- C3 witness: instantiation of the amended theorem at `eS` with
configured fields `["x", "y"]`, where only `x` is present, yielding the
key `a | v | `. -/
theorem c3_searchKey_witness : dS.searchKey = Value.str "a | v | " :=
  (c3_get_item_searchKey (Config.mk ["x", "y"]) eS dS eS "a" rfl rfl (by decide)).trans rfl

/-- C4 counterexample: the claim predicts that the extraction output path
carries the bibliography file extension; for document `notes.md` and a
bibliography `refs.json` that would be `notes.json`, but the code always
appends the literal `.bib`, producing `notes.bib`. -/
theorem c4_counterexample_extension_hardcoded :
    extract_output "notes.md" = "notes.bib" ∧
    (py_splitext "refs.json").2 = ".json" ∧
    extract_output "notes.md" ≠ (py_splitext "notes.md").1 ++ (py_splitext "refs.json").2 := by
  refine ⟨rfl, rfl, ?_⟩
  decide

/-- C4 (amended): the extraction output path is the document path with its
extension removed and replaced by the literal `.bib`, regardless of the
bibliography file or its extension (the computation does not consult the
bibliography path at all). -/
theorem c4_extract_output_bib (stem ext : String) (hs : stem ≠ "")
    (hsd : stem.data.all (fun c => c != '.' && c != '/') = true)
    (hed : ext.data.all (fun c => c != '.' && c != '/') = true) :
    extract_output (stem ++ "." ++ ext) = stem ++ ".bib" := by
  have hsd' : ∀ c ∈ stem.data, c ≠ '.' ∧ c ≠ '/' := by
    intro c hc
    have h2 := List.all_eq_true.mp hsd c hc
    simp only [Bool.and_eq_true, bne_iff_ne, ne_eq] at h2
    exact h2
  have hed' : ∀ c ∈ ext.data, c ≠ '.' ∧ c ≠ '/' := by
    intro c hc
    have h2 := List.all_eq_true.mp hed c hc
    simp only [Bool.and_eq_true, bne_iff_ne, ne_eq] at h2
    exact h2
  unfold extract_output
  rw [py_splitext_of stem ext hs hsd' hed']

/-- C4 witness: the document `notes.md` yields the output `notes.bib`. -/
theorem c4_extract_output_witness :
    extract_output ("notes" ++ "." ++ "md") = "notes" ++ ".bib" :=
  c4_extract_output_bib "notes" "md" (by decide) (by decide) (by decide)

/-- C5: a missing file makes the staleness check raise with the state
unchanged, so the next call retries the stat; the first call for a path
records the observed modification time and reports stale, and an
immediately repeated call reports fresh; every subsequent call reports
stale exactly when the modification time strictly grew, records the new
time exactly in that case, and an immediately repeated call reports
fresh. -/
theorem c5_check_modified_spec (st : PluginState) (p : String) (m : Nat) :
    check_modified st p none = (.error "FileNotFoundError", st) ∧
    (st.last_modified p = none →
      check_modified st p (some m) = (.ok true, setLM st p m) ∧
      check_modified (setLM st p m) p (some m) = (.ok false, setLM st p m)) ∧
    ∀ t, st.last_modified p = some t →
      (check_modified st p (some m)).1 = .ok (decide (t < m)) ∧
      (t < m → (check_modified st p (some m)).2 = setLM st p m) ∧
      (¬ t < m → (check_modified st p (some m)).2 = st) ∧
      check_modified (check_modified st p (some m)).2 p (some m) =
        (.ok false, (check_modified st p (some m)).2) := by
  refine ⟨rfl, ?_, ?_⟩
  · intro hlm
    constructor
    · simp [check_modified, hlm]
    · simp [check_modified, setLM]
  · intro t hlm
    refine ⟨?_, ?_, ?_, ?_⟩
    · by_cases htm : t < m <;> simp [check_modified, hlm, htm]
    · intro htm; simp [check_modified, hlm, htm]
    · intro htm; simp [check_modified, hlm, htm]
    · by_cases htm : t < m
      · simp [check_modified, hlm, htm, setLM]
      · simp [check_modified, hlm, htm]

/-- C5 witness: with recorded time 1 and observed time 7 the check reports
stale, and the immediately repeated check reports fresh with the state
unchanged. -/
theorem c5_check_modified_witness :
    (check_modified stB "b" (some 7)).1 = .ok true ∧
    check_modified (check_modified stB "b" (some 7)).2 "b" (some 7) =
      (.ok false, (check_modified stB "b" (some 7)).2) := by
  have h := (c5_check_modified_spec stB "b" 7).2.2 1 rfl
  exact ⟨h.1.trans rfl, h.2.2.2⟩

/-- C6: the refresh-and-return operation is idempotent: once a call has
succeeded with records `r` and keys `k`, a second call at an unchanged
modification time returns the same `(r, k)` and the same state,
independently of whatever the parser would produce - i.e. it performs no
reparse. -/
theorem c6_ensure_fresh_idempotent (cfg : Config) (st0 : PluginState) (p : String) (m : Nat)
    (parsed1 : Except String (List RawEntry)) (r : List DisplayRecord) (k : List Value)
    (st1 : PluginState)
    (h : ensure_fresh cfg st0 p (some m) parsed1 = (.ok (r, k), st1)) :
    ∀ parsed2, ensure_fresh cfg st1 p (some m) parsed2 = (.ok (r, k), st1) := by
  obtain ⟨⟨t, hlm, htm⟩, hr, hk⟩ := ensure_fresh_ok_elim cfg st0 p m parsed1 r k st1 h
  intro parsed2
  simp [ensure_fresh, check_modified, hlm, htm, hr, hk]

/-- C6 witness: on the loaded state `stB` at unchanged modification time 1
a repeated call returns the cached empty sequences even when the parser
would fail. -/
theorem c6_idempotent_witness :
    ensure_fresh (Config.mk []) stB "b" (some 1) (.error "x") = (.ok ([], []), stB) :=
  c6_ensure_fresh_idempotent (Config.mk []) stB "b" 1 (.ok []) [] [] stB rfl (.error "x")

/-- C7: when a journal-like field is present (`journal` preferred over
`journaltitle`), the projected publication is the journal value with
` (volume)` appended when `volume` is present and then ` number` appended
when `number` is present. -/
theorem c7_get_item_publication (cfg : Config) (i : RawEntry) (d : DisplayRecord)
    (i' : RawEntry) (j : String) (v n : Option String)
    (hok : get_item cfg i = .ok (d, i'))
    (hj : (match lookupField i "journal" with
           | some w => some w
           | none => lookupField i "journaltitle") = some (Value.str j))
    (hv : lookupField i "volume" = Option.map Value.str v)
    (hn : lookupField i "number" = Option.map Value.str n) :
    d.publication = Value.str (j ++ volSuffix v ++ numSuffix n) := by
  obtain ⟨y, pub, sk, hy, hpub, hsk, hd⟩ := get_item_ok_elim cfg i d i' hok
  subst hd
  show pub = _
  cases hjj : lookupField i "journal" with
  | some w =>
    have hw : w = Value.str j := by rw [hjj] at hj; simpa using hj
    subst hw
    simp only [pyPublication, hjj] at hpub
    rw [withVolNum_str i j v n hv hn] at hpub
    simp only [Except.ok.injEq] at hpub
    exact hpub.symm
  | none =>
    have hjt : lookupField i "journaltitle" = some (Value.str j) := by
      rw [hjj] at hj; simpa using hj
    simp only [pyPublication, hjj, hjt] at hpub
    rw [withVolNum_str i j v n hv hn] at hpub
    simp only [Except.ok.injEq] at hpub
    exact hpub.symm

/-- C7 witness: `journal = X`, `volume = 3`, `number = 2` projects to the
publication `X (3) 2`. -/
theorem c7_publication_witness : dJ.publication = Value.str "X (3) 2" :=
  (c7_get_item_publication (Config.mk []) eJ dJ eJ "X" (some "3") (some "2")
    rfl rfl rfl rfl).trans rfl

/-- C8: the projected dateAuthors field is `D ++ " | " ++ A` where `D` is
the `year` value when present, else the `issued` value, else `<no date>`,
and `A` is the comma-space join of the parts before the first comma of
each author string, or `<no authors>` when `author` is absent. -/
theorem c8_get_item_dateAuthors (cfg : Config) (i : RawEntry) (d : DisplayRecord)
    (i' : RawEntry) (y0 iss : Option String) (au : Option (List String))
    (hok : get_item cfg i = .ok (d, i'))
    (hy : lookupField i "year" = Option.map Value.str y0)
    (hi : lookupField i "issued" = Option.map Value.str iss)
    (ha : lookupField i "author" = Option.map Value.list au) :
    d.dateAuthors = dateSpec y0 iss ++ " | " ++ authorsSpec au := by
  obtain ⟨y, pub, sk, hy2, hpub, hsk, hd⟩ := get_item_ok_elim cfg i d i' hok
  subst hd
  show y ++ " | " ++ pyAuthors i = _
  have hYV : pyYear i = Value.str (dateSpec y0 iss) := by
    cases y0 <;> cases iss <;> simp [pyYear, hy, hi, dateSpec]
  rw [hYV] at hy2
  simp only [Value.str.injEq] at hy2
  have hA : pyAuthors i = authorsSpec au := by
    cases au <;> simp [pyAuthors, ha, authorsSpec]
  rw [hA, hy2]

/-- C8 witness: `issued = 2020` with
`author = [Smith, John and Doe, Jane]` projects to `2020 | Smith, Doe`. -/
theorem c8_dateAuthors_witness : dI.dateAuthors = "2020 | Smith, Doe" :=
  (c8_get_item_dateAuthors (Config.mk []) eI dI eI none (some "2020")
    (some ["Smith, John", "Doe, Jane"]) rfl rfl rfl rfl).trans rfl

/-- C9: after a successful load the cached record list and key list for
the path have the same length as the parsed entry list and are
index-aligned - the record at each index is the projection of the entry
at that index, whose `ID` is the key at that index - and the staleness
check never touches the cached lists. -/
theorem c9_update_refs_alignment (cfg : Config) (st : PluginState) (p : String)
    (entries : List RawEntry)
    (h : (update_refs cfg st p (.ok entries)).1 = .ok ()) :
    ∃ recs keys,
      (update_refs cfg st p (.ok entries)).2.refs p = some recs ∧
      (update_refs cfg st p (.ok entries)).2.ref_keys p = some keys ∧
      recs.length = entries.length ∧ keys.length = entries.length ∧
      (∀ (jdx : Nat) (e : RawEntry) (rec : DisplayRecord) (kv : Value),
        entries[jdx]? = some e → recs[jdx]? = some rec → keys[jdx]? = some kv →
        ∃ i', get_item cfg e = .ok (rec, i') ∧ lookupField i' "ID" = some kv) ∧
      ∀ q mt, (check_modified (update_refs cfg st p (.ok entries)).2 q mt).2.refs =
          (update_refs cfg st p (.ok entries)).2.refs ∧
        (check_modified (update_refs cfg st p (.ok entries)).2 q mt).2.ref_keys =
          (update_refs cfg st p (.ok entries)).2.ref_keys := by
  obtain ⟨entries2, pairs, keyVals, hpar, hmg, hmk, _, hrefs, hkeys, _⟩ :=
    update_refs_ok cfg st p (.ok entries) h
  have hent : entries = entries2 := by
    cases hpar
    rfl
  subst hent
  refine ⟨pairs.map (fun pr => pr.1), keyVals, hrefs, hkeys, ?_, ?_, ?_, ?_⟩
  · rw [List.length_map]
    exact map_get_item_length cfg entries pairs hmg
  · rw [map_key_length pairs keyVals hmk]
    exact map_get_item_length cfg entries pairs hmg
  · intro jdx e rec kv he hrec hkv
    rw [List.getElem?_map] at hrec
    cases hpr : pairs[jdx]? with
    | none => rw [hpr] at hrec; simp at hrec
    | some pr =>
      rw [hpr] at hrec
      simp only [Option.map_some', Option.some.injEq] at hrec
      have hget := map_get_item_get cfg entries pairs hmg jdx e pr he hpr
      have hidp := map_key_get pairs keyVals hmk jdx pr kv hpr hkv
      refine ⟨pr.2, ?_, hidp⟩
      rw [hget, ← hrec]
  · intro q mt
    exact check_modified_preserves _ q mt

/-- C9 witness: instantiation at the one-entry bibliography `[eX]`. -/
theorem c9_alignment_witness :
    ∃ recs keys,
      (update_refs (Config.mk []) stB "b" (.ok [eX])).2.refs "b" = some recs ∧
      (update_refs (Config.mk []) stB "b" (.ok [eX])).2.ref_keys "b" = some keys ∧
      recs.length = [eX].length ∧ keys.length = [eX].length ∧
      (∀ (jdx : Nat) (e : RawEntry) (rec : DisplayRecord) (kv : Value),
        [eX][jdx]? = some e → recs[jdx]? = some rec → keys[jdx]? = some kv →
        ∃ i', get_item (Config.mk []) e = .ok (rec, i') ∧ lookupField i' "ID" = some kv) ∧
      ∀ q mt, (check_modified (update_refs (Config.mk []) stB "b" (.ok [eX])).2 q mt).2.refs =
          (update_refs (Config.mk []) stB "b" (.ok [eX])).2.refs ∧
        (check_modified (update_refs (Config.mk []) stB "b" (.ok [eX])).2 q mt).2.ref_keys =
          (update_refs (Config.mk []) stB "b" (.ok [eX])).2.ref_keys :=
  c9_update_refs_alignment (Config.mk []) stB "b" [eX] rfl

/-- C10 counterexample: `get_item` does mutate its input when the `ID`
value is a list and search fields are configured - the Python statement
`search_key += ' | '` extends the aliased list in place, so the entry
comes back with `ID = [k, space, bar, space]` instead of `[k]`. -/
theorem c10_counterexample_list_ID_mutated :
    get_item (Config.mk ["a"])
        [("ID", Value.list ["k"]), ("title", Value.str "T"), ("ENTRYTYPE", Value.str "misc")] =
      .ok ({ searchKey := Value.list ["k", " ", "|", " "],
             dateAuthors := "<no date> | <no authors>",
             title := Value.str "T", publication := Value.str "Misc" },
           [("ID", Value.list ["k", " ", "|", " "]), ("title", Value.str "T"),
            ("ENTRYTYPE", Value.str "misc")]) ∧
    ([("ID", Value.list ["k", " ", "|", " "]), ("title", Value.str "T"),
      ("ENTRYTYPE", Value.str "misc")] : RawEntry) ≠
      [("ID", Value.list ["k"]), ("title", Value.str "T"), ("ENTRYTYPE", Value.str "misc")] :=
  ⟨rfl, by decide⟩

/-- C10 (amended): whenever the `ID` value of the entry is a plain string,
`get_item` returns the entry unchanged - the in-place extension only
happens through a list-valued `ID` alias. -/
theorem c10_get_item_no_mutation (cfg : Config) (i : RawEntry) (d : DisplayRecord)
    (i' : RawEntry) (s : String)
    (hok : get_item cfg i = .ok (d, i'))
    (hid : lookupField i "ID" = some (Value.str s)) :
    get_item cfg i = .ok (d, i) := by
  suffices hii : i' = i by rw [hok, hii]
  obtain ⟨y, pub, sk, hy, hpub, hsk, hd⟩ := get_item_ok_elim cfg i d i' hok
  rcases hasf : cfg.additional_search_fields with _ | ⟨f, rest⟩
  · simp only [pySearchKey, hid, hasf] at hsk
    simp only [Except.ok.injEq, Prod.mk.injEq] at hsk
    exact hsk.2.symm
  · simp only [pySearchKey, hid, hasf] at hsk
    simp only [skStep, writeBack] at hsk
    rw [skLoop_str] at hsk
    simp only [Except.ok.injEq, Prod.mk.injEq] at hsk
    exact hsk.2.symm

/-- C10 witness: the string-`ID` entry `eX` with configured fields `["x"]`
comes back from `get_item` unchanged. -/
theorem c10_no_mutation_witness :
    get_item (Config.mk ["x"]) eX = .ok (dX, eX) :=
  c10_get_item_no_mutation (Config.mk ["x"]) eX dX eX "a" rfl rfl

end CiteBibtex
